import Mathlib

/-!
# Verification of the mb-API-REST settlement and balance engine

Shallow embedding of the bet-settlement calculator (`src/utils/betCalculations.js`),
the bookmaker balance query (`src/controllers/bookMakers.controller.js`), the
period-balance query and transaction aggregates (`src/utils/helpers.js`), the
bet controller (`createBet` / `updateBet` / `getBetStats`), and the freebet
conversion-rate aggregate (`src/controllers/freebets.controller.js`).

Modelling conventions:
* JavaScript numbers are modelled as exact rationals (`ℚ`).  Where an
  expression can produce `NaN` or `±Infinity` (the aggregate ratios), values
  are modelled by `JNum`, a rational extended with those points.
* `Number(x.toFixed(2))` is modelled by `round2`: the nearest multiple of
  `1/100`, ties resolved to the larger value (toward `+∞`), exactly as the
  ECMAScript `toFixed` algorithm prescribes ("if there are two such n, pick
  the larger n").
* Enumerated columns (`status`, `betType`, transaction `type`) are kept as
  `String`, since the calculator's behaviour on *unknown* strings is part of
  the spec (default switch arm).
* SQL `SUM` over a filtered row set is a list sum; the `NULL`-when-empty case
  coincides with the JS `|| 0` fallback applied by the controllers, so both
  are modelled as the (0-valued) empty sum unless noted otherwise.
-/

namespace MbApiRest

/-- `Number(x.toFixed(2))` on an (idealised, exact) numeric value.
`Number.prototype.toFixed` first strips the sign ("If x < 0, set s to '-' and
x to −x") and then picks the integer n with `n / 10^2 − x` closest to zero,
the larger n on a tie; so the magnitude rounds to the nearest cent with
half-cent ties away from zero, and the sign is reapplied afterwards. -/
def round2 (x : ℚ) : ℚ :=
  if x < 0 then -(((⌊100 * -x + 1 / 2⌋ : ℤ) : ℚ) / 100)
  else ((⌊100 * x + 1 / 2⌋ : ℤ) : ℚ) / 100

/-- `calculateLiability` from `src/utils/betCalculations.js`:
`status !== 'pending'` returns 0, otherwise a switch on `betType` with cases
`'layBet'`, `'freeBet'` and a default arm. -/
def calculateLiability (status betType : String) (stake odds : ℚ) : ℚ :=
  if status ≠ "pending" then 0
  else if betType = "layBet" then round2 (stake * (odds - 1))
  else if betType = "freeBet" then 0
  else round2 stake

/-- `calculateCommission` from `src/utils/betCalculations.js`:
`Number((profit * (commission / 100)).toFixed(2))`. -/
def calculateCommission (profit commission : ℚ) : ℚ :=
  round2 (profit * (commission / 100))

/-- `calculateResult` from `src/utils/betCalculations.js`.  The JS signature
has a default parameter `commission = 0`; callers that pass `undefined`
(see `createBet`) get that default, modelled at the call sites. -/
def calculateResult (status betType : String) (stake odds liability commission : ℚ) : ℚ :=
  if status = "pending" then 0
  else if betType = "backBet" then
    if status = "won" then
      let profit := stake * (odds - 1)
      let commissionAmount := calculateCommission profit commission
      round2 (profit - commissionAmount)
    else -(round2 stake)
  else if betType = "layBet" then
    if status = "won" then
      let profit := stake
      let commissionAmount := calculateCommission profit commission
      round2 (profit - commissionAmount)
    else -(round2 liability)
  else if betType = "freeBet" then
    if status = "won" then
      let profit := stake * (odds - 1)
      let commissionAmount := calculateCommission profit commission
      round2 (profit - commissionAmount)
    else 0
  else
    -- default arm: identical to the 'backBet' case
    if status = "won" then
      let profit := stake * (odds - 1)
      let commissionAmount := calculateCommission profit commission
      round2 (profit - commissionAmount)
    else -(round2 stake)

/-- A value expressible in whole cents (two decimal places). -/
def Is2dp (x : ℚ) : Prop := ∃ k : ℤ, x = (k : ℚ) / 100

theorem round2_int_div (k : ℤ) : round2 ((k : ℚ) / 100) = (k : ℚ) / 100 := by
  unfold round2
  have hfloor : ∀ m : ℤ, ⌊(m : ℚ) + 1 / 2⌋ = m := by
    intro m
    rw [add_comm, Int.floor_add_int]
    norm_num
  by_cases h : ((k : ℚ) / 100) < 0
  · rw [if_pos h]
    have harg : (100 : ℚ) * -((k : ℚ) / 100) = ((-k : ℤ) : ℚ) := by
      push_cast
      ring
    rw [harg, hfloor]
    push_cast
    ring
  · rw [if_neg h]
    have harg : (100 : ℚ) * ((k : ℚ) / 100) = (k : ℚ) := by field_simp
    rw [harg, hfloor]

theorem round2_eq_of_is2dp {x : ℚ} (h : Is2dp x) : round2 x = x := by
  obtain ⟨k, rfl⟩ := h
  exact round2_int_div k

theorem is2dp_round2 (x : ℚ) : Is2dp (round2 x) := by
  unfold round2
  split
  · exact ⟨-⌊100 * -x + 1 / 2⌋, by push_cast; ring⟩
  · exact ⟨⌊100 * x + 1 / 2⌋, rfl⟩

theorem is2dp_zero : Is2dp 0 := ⟨0, by norm_num⟩

theorem is2dp_add {x y : ℚ} (hx : Is2dp x) (hy : Is2dp y) : Is2dp (x + y) := by
  obtain ⟨a, rfl⟩ := hx
  obtain ⟨b, rfl⟩ := hy
  exact ⟨a + b, by push_cast; ring⟩

theorem is2dp_neg {x : ℚ} (hx : Is2dp x) : Is2dp (-x) := by
  obtain ⟨a, rfl⟩ := hx
  exact ⟨-a, by push_cast; ring⟩

theorem is2dp_sub {x y : ℚ} (hx : Is2dp x) (hy : Is2dp y) : Is2dp (x - y) := by
  rw [sub_eq_add_neg]; exact is2dp_add hx (is2dp_neg hy)

/-! ## Claim C2 — `calculateLiability` contract -/

/-- C2 (confirmed): for every status, betType, stake and odds,
`calculateLiability` returns 0 whenever `status ≠ 'pending'`; when
`status = 'pending'` it returns `stake×(odds−1)` rounded to 2 decimals for
`'layBet'`, 0 for `'freeBet'`, and `stake` rounded to 2 decimals for every
other betType; in particular
`calculateLiability('pending','layBet',100,2.5) = 150.00`. -/
theorem claim_C2_calculateLiability_contract :
    (∀ (status betType : String) (stake odds : ℚ),
      calculateLiability status betType stake odds =
        if status = "pending" then
          if betType = "layBet" then round2 (stake * (odds - 1))
          else if betType = "freeBet" then 0
          else round2 stake
        else 0) ∧
    calculateLiability "pending" "layBet" 100 (5 / 2) = 150 := by
  constructor
  · intro status betType stake odds
    unfold calculateLiability
    by_cases h : status = "pending" <;> simp [h]
  · simp [calculateLiability]
    norm_num [round2]

/-! ## Claim C1 — `calculateResult` contract -/

/-- C1, counterexample: the claim says the result of a lost back-style bet is
`−stake` exactly, but the code returns `−Number(stake.toFixed(2))`: at
`stake = 10.006` the code yields `−10.01`, not `−10.006`. -/
theorem claim_C1_counterexample :
    calculateResult "lost" "backBet" (10006 / 1000) 2 0 0 = -(1001 / 100) ∧
    -(1001 / 100 : ℚ) ≠ -(10006 / 1000 : ℚ) := by
  constructor
  · simp [calculateResult, calculateCommission]
    norm_num [round2]
  · norm_num

/-- C1 as amended: `calculateResult` returns 0 when pending; when won it
returns the profit minus the commission on that profit, rounded to 2 decimals
(profit `stake×(odds−1)` for backBet/mugBet/personal/other/freeBet, `stake`
for layBet); when lost it returns `−stake` *rounded to 2 decimals* for
backBet/mugBet/personal/other, `−liability` *rounded to 2 decimals* for
layBet, and 0 for freeBet — the lost legs round rather than returning the raw
value.  The four quoted evaluations hold. -/
theorem claim_C1_amended (stake odds liability c : ℚ) :
    (∀ betType, calculateResult "pending" betType stake odds liability c = 0) ∧
    calculateResult "won" "backBet" stake odds liability c =
      round2 (stake * (odds - 1) - calculateCommission (stake * (odds - 1)) c) ∧
    calculateResult "won" "mugBet" stake odds liability c =
      round2 (stake * (odds - 1) - calculateCommission (stake * (odds - 1)) c) ∧
    calculateResult "won" "personal" stake odds liability c =
      round2 (stake * (odds - 1) - calculateCommission (stake * (odds - 1)) c) ∧
    calculateResult "won" "other" stake odds liability c =
      round2 (stake * (odds - 1) - calculateCommission (stake * (odds - 1)) c) ∧
    calculateResult "won" "freeBet" stake odds liability c =
      round2 (stake * (odds - 1) - calculateCommission (stake * (odds - 1)) c) ∧
    calculateResult "won" "layBet" stake odds liability c =
      round2 (stake - calculateCommission stake c) ∧
    calculateResult "lost" "backBet" stake odds liability c = -(round2 stake) ∧
    calculateResult "lost" "mugBet" stake odds liability c = -(round2 stake) ∧
    calculateResult "lost" "personal" stake odds liability c = -(round2 stake) ∧
    calculateResult "lost" "other" stake odds liability c = -(round2 stake) ∧
    calculateResult "lost" "layBet" stake odds liability c = -(round2 liability) ∧
    calculateResult "lost" "freeBet" stake odds liability c = 0 ∧
    calculateResult "won" "backBet" 100 (5 / 2) 0 5 = 285 / 2 ∧
    calculateResult "lost" "layBet" 100 (5 / 2) 150 0 = -150 ∧
    calculateResult "won" "freeBet" 50 3 0 0 = 100 ∧
    calculateResult "lost" "freeBet" 50 3 0 0 = 0 := by
  refine ⟨fun betType => by simp [calculateResult],
    ?_, ?_, ?_, ?_, ?_, ?_, ?_, ?_, ?_, ?_, ?_, ?_, ?_, ?_, ?_, ?_⟩
  · simp [calculateResult]
  · simp [calculateResult]
  · simp [calculateResult]
  · simp [calculateResult]
  · simp [calculateResult]
  · simp [calculateResult]
  · simp [calculateResult]
  · simp [calculateResult]
  · simp [calculateResult]
  · simp [calculateResult]
  · simp [calculateResult]
  · simp [calculateResult]
  · simp [calculateResult, calculateCommission]
    norm_num [round2]
  · simp [calculateResult]
    norm_num [round2]
  · simp [calculateResult, calculateCommission]
    norm_num [round2]
  · simp [calculateResult]

/-! ## Claim C6 — commission formula and rounding policy -/

/-- C6 (confirmed): `calculateCommission(profit, c) = profit×c/100` rounded
to 2 decimals; every monetary output of the three calculator functions is a
whole-cent value, rounded at the point of computation; and every half-cent
case rounds away from zero — `toFixed` strips the sign before resolving the
tie to the larger candidate, so `calculateCommission(−0.25, 50) = −0.13`.
Stability is inherent: the functions are pure, so recomputation returns the
identical value. -/
theorem claim_C6_commission_and_rounding :
    (∀ profit c : ℚ, calculateCommission profit c = round2 (profit * (c / 100))) ∧
    (∀ k : ℕ, round2 ((2 * k + 1 : ℚ) / 200) = ((k : ℚ) + 1) / 100) ∧
    (∀ k : ℕ, round2 (-((2 * k + 1 : ℚ) / 200)) = -(((k : ℚ) + 1) / 100)) ∧
    calculateCommission (-1 / 4) 50 = -(13 / 100) ∧
    (∀ profit c : ℚ, Is2dp (calculateCommission profit c)) ∧
    (∀ (s bt : String) (stake odds : ℚ), Is2dp (calculateLiability s bt stake odds)) ∧
    (∀ (s bt : String) (stake odds l c : ℚ), Is2dp (calculateResult s bt stake odds l c)) := by
  have hpos' : ∀ k : ℕ, (0 : ℚ) < (2 * k + 1 : ℚ) / 200 := by
    intro k
    positivity
  have hpos : ∀ k : ℕ, ¬ ((2 * k + 1 : ℚ) / 200 < 0) := fun k => not_lt.mpr (hpos' k).le
  have hfloorarg : ∀ k : ℕ, (100 : ℚ) * ((2 * k + 1 : ℚ) / 200) + 1 / 2 = ((k + 1 : ℤ) : ℚ) := by
    intro k
    push_cast
    ring
  refine ⟨fun _ _ => rfl, ?_, ?_, ?_, fun _ _ => is2dp_round2 _, ?_, ?_⟩
  · intro k
    unfold round2
    rw [if_neg (hpos k), hfloorarg k, Int.floor_intCast]
    push_cast
    ring
  · intro k
    unfold round2
    rw [if_pos (neg_neg_of_pos (hpos' k)), neg_neg, hfloorarg k, Int.floor_intCast]
    push_cast
    ring
  · norm_num [calculateCommission, round2]
  · intro s bt stake odds
    unfold calculateLiability
    split
    · exact is2dp_zero
    split
    · exact is2dp_round2 _
    split
    · exact is2dp_zero
    · exact is2dp_round2 _
  · intro s bt stake odds l c
    unfold calculateResult
    split
    · exact is2dp_zero
    split
    · split
      · exact is2dp_round2 _
      · exact is2dp_neg (is2dp_round2 _)
    split
    · split
      · exact is2dp_round2 _
      · exact is2dp_neg (is2dp_round2 _)
    split
    · split
      · exact is2dp_round2 _
      · exact is2dp_zero
    · split
      · exact is2dp_round2 _
      · exact is2dp_neg (is2dp_round2 _)

/-! ## Claim C8 — unknown betType falls back to the default arm -/

/-- C8, counterexample: the claim's gloss of the fallback says a won bet of an
unknown type yields `stake×(odds−1)` minus commission *unrounded*; at
`stake = 10.006, odds = 2, commission 0` the code returns `10.01`
(rounded), not `10.006`. -/
theorem claim_C8_counterexample :
    calculateResult "won" "weird" (10006 / 1000) 2 0 0 = 1001 / 100 ∧
    (1001 / 100 : ℚ) ≠
      10006 / 1000 * (2 - 1) - calculateCommission (10006 / 1000 * (2 - 1)) 0 := by
  constructor
  · simp [calculateResult, calculateCommission]
    norm_num [round2]
  · norm_num [calculateCommission, round2]

/-- C8 as amended: the calculators are total (they never raise), and a
betType outside the six known values takes the default switch arm, behaving
exactly like a back bet: liability `stake` rounded to 2 decimals while
pending, result `stake×(odds−1)` minus commission *rounded to 2 decimals*
when won and `−stake` *rounded to 2 decimals* when lost. -/
theorem claim_C8_amended (betType : String)
    (h : betType ∉ ["backBet", "layBet", "mugBet", "freeBet", "personal", "other"]) :
    ∀ (status : String) (stake odds liability c : ℚ),
      calculateLiability status betType stake odds =
        calculateLiability status "backBet" stake odds ∧
      calculateResult status betType stake odds liability c =
        calculateResult status "backBet" stake odds liability c ∧
      calculateLiability "pending" betType stake odds = round2 stake ∧
      calculateResult "won" betType stake odds liability c =
        round2 (stake * (odds - 1) - calculateCommission (stake * (odds - 1)) c) ∧
      calculateResult "lost" betType stake odds liability c = -(round2 stake) := by
  simp only [List.mem_cons, List.not_mem_nil, or_false, not_or] at h
  obtain ⟨hback, hlay, hmug, hfree, hpers, hother⟩ := h
  intro status stake odds liability c
  refine ⟨?_, ?_, ?_, ?_, ?_⟩
  · unfold calculateLiability
    simp [hlay, hfree]
  · unfold calculateResult
    simp [hback, hlay, hfree]
  · unfold calculateLiability
    simp [hlay, hfree]
  · unfold calculateResult
    simp [hback, hlay, hfree]
  · unfold calculateResult
    simp [hback, hlay, hfree]

/-- C8 witness: the amended fallback behaviour at the concrete unknown type
`'accumulator'`. -/
theorem claim_C8_witness :
    ("accumulator" : String) ∉
      ["backBet", "layBet", "mugBet", "freeBet", "personal", "other"] ∧
    calculateResult "lost" "accumulator" 100 2 0 0 = -(round2 100) := by
  refine ⟨by decide, ?_⟩
  exact (claim_C8_amended "accumulator" (by decide) "lost" 100 2 0 0).2.2.2.2

/-! ## List-sum helpers (SQL `SUM` over filtered rows) -/

/-- SQL `SUM(f(row))` over a list of rows; the empty sum is 0, matching the
`NULL`-sum-plus-`|| 0` treatment in the controllers. -/
def sumBy {α : Type} (l : List α) (f : α → ℚ) : ℚ := (l.map f).sum

@[simp] theorem sumBy_nil {α : Type} (f : α → ℚ) : sumBy ([] : List α) f = 0 := rfl

@[simp] theorem sumBy_cons {α : Type} (a : α) (l : List α) (f : α → ℚ) :
    sumBy (a :: l) f = f a + sumBy l f := rfl

theorem sumBy_ite_filter {α : Type} (l : List α) (p : α → Prop) [DecidablePred p]
    (f : α → ℚ) :
    sumBy l (fun x => if p x then f x else 0) = sumBy (l.filter (fun x => p x)) f := by
  induction l with
  | nil => rfl
  | cons a t ih => by_cases h : p a <;> simp [List.filter_cons, h, ih]

theorem sumBy_eq_zero {α : Type} {l : List α} {f : α → ℚ} (h : ∀ x ∈ l, f x = 0) :
    sumBy l f = 0 := by
  induction l with
  | nil => rfl
  | cons a t ih =>
    simp only [sumBy_cons, h a (List.mem_cons_self a t), zero_add]
    exact ih fun x hx => h x (List.mem_cons_of_mem a hx)

theorem is2dp_sumBy {α : Type} {l : List α} {f : α → ℚ} (h : ∀ x ∈ l, Is2dp (f x)) :
    Is2dp (sumBy l f) := by
  induction l with
  | nil => exact is2dp_zero
  | cons a t ih =>
    simp only [sumBy_cons]
    exact is2dp_add (h a (List.mem_cons_self a t))
      (ih fun x hx => h x (List.mem_cons_of_mem a hx))

theorem round2_zero : round2 0 = 0 := by
  simpa using round2_int_div 0

/-! ## Data model: persisted rows (`src/database/query.sql`) -/

/-- A row of the `bookMakers` table.  The commission percentage column is
spelled `comission` in the schema and everywhere it is written. -/
structure BookMakerRow where
  id : ℕ
  name : String
  comission : ℚ
  initialBalance : ℚ
deriving DecidableEq

/-- A row of the `bets` table (columns used by the controllers). -/
structure BetRow where
  id : ℕ
  idBookMaker : ℕ
  bank : String
  betType : String
  betDate : Int
  eventDate : Int
  event : String
  bet : String
  stake : ℚ
  odds : ℚ
  status : String
  liability : ℚ
  result : ℚ
  info : Option String
deriving DecidableEq

/-- A row of the `transactions` table. -/
structure TransactionRow where
  id : ℕ
  idBookMaker : ℕ
  type : String
  amount : ℚ
  date : Int
  info : Option String
deriving DecidableEq

/-- The persistent store the controllers read and write. -/
structure DB where
  bookMakers : List BookMakerRow
  bets : List BetRow
  transactions : List TransactionRow
  nextBetId : ℕ
deriving DecidableEq

/-! ## `getBookMakerBalance` (`src/controllers/bookMakers.controller.js`) -/

/-- The JSON balance payload produced by `getBookMakerBalance`. -/
structure BalanceBreakdown where
  bookMakerName : String
  balance : ℚ
  initialBalance : ℚ
  totalDeposits : ℚ
  totalWithdrawals : ℚ
  totalResults : ℚ
  totalLiability : ℚ
deriving DecidableEq

/-- `getBookMakerBalance`: `none` models the 404 path; otherwise the two SQL
aggregates (`SUM(CASE WHEN type = 'deposit' ...)`, `SUM(result)`,
`SUM(CASE WHEN status = 'pending' THEN liability ...)`) filtered by
`idBookMaker`, combined as
`initialBalance + deposits − withdrawals + results − liability` and the
output fields passed through `Number(x.toFixed(2))`. -/
def getBookMakerBalance (db : DB) (id : ℕ) : Option BalanceBreakdown :=
  match db.bookMakers.find? (fun bm => bm.id = id) with
  | none => none
  | some bookMaker =>
    let txs := db.transactions.filter (fun t => t.idBookMaker = id)
    let totalDeposits := sumBy txs (fun t => if t.type = "deposit" then t.amount else 0)
    let totalWithdrawals := sumBy txs (fun t => if t.type = "withdrawal" then t.amount else 0)
    let bets := db.bets.filter (fun b => b.idBookMaker = id)
    let totalResults := sumBy bets (fun b => b.result)
    let totalLiability := sumBy bets (fun b => if b.status = "pending" then b.liability else 0)
    let balance := bookMaker.initialBalance + totalDeposits - totalWithdrawals
      + totalResults - totalLiability
    some { bookMakerName := bookMaker.name
           balance := round2 balance
           initialBalance := round2 bookMaker.initialBalance
           totalDeposits := round2 totalDeposits
           totalWithdrawals := round2 totalWithdrawals
           totalResults := round2 totalResults
           totalLiability := round2 totalLiability }

/-- The balance formula exactly as claim C3 states it (settled results only,
no rounding), for comparison with the code's value. -/
def claimedBookMakerBalance (initialBalance : ℚ) (txs : List TransactionRow)
    (bets : List BetRow) : ℚ :=
  initialBalance
    + sumBy (txs.filter (fun t => t.type = "deposit")) (fun t => t.amount)
    - sumBy (txs.filter (fun t => t.type = "withdrawal")) (fun t => t.amount)
    + sumBy (bets.filter (fun b => b.status ≠ "pending")) (fun b => b.result)
    - sumBy (bets.filter (fun b => b.status = "pending")) (fun b => b.liability)

theorem sumBy_partition_pending (bets : List BetRow) (f : BetRow → ℚ) :
    sumBy bets f =
      sumBy (bets.filter (fun b => b.status = "pending")) f +
      sumBy (bets.filter (fun b => b.status ≠ "pending")) f := by
  induction bets with
  | nil => simp
  | cons b t ih =>
    by_cases h : b.status = "pending" <;>
      simp [List.filter_cons, h, ih] <;> ring

/-- Data making claim C3 fail: a single deposit of `0.005` (storable, since
`createTransaction` only checks truthiness of `amount`). -/
def c3CounterDB : DB :=
  { bookMakers := [⟨1, "A", 0, 0⟩]
    bets := []
    transactions := [⟨1, 1, "deposit", 1 / 200, 1, none⟩]
    nextBetId := 1 }

/-- C3, counterexample: the claim promises the exact sum
`initialBalance + Σdeposits − Σwithdrawals + Σresult(settled) − Σliability(pending)`,
but the code rounds the total to 2 decimals: with one deposit of `0.005` the
query reports `0.01`, not `0.005`. -/
theorem claim_C3_counterexample :
    (getBookMakerBalance c3CounterDB 1).map (fun r => r.balance) = some (1 / 100) ∧
    claimedBookMakerBalance 0
      (c3CounterDB.transactions.filter (fun t => t.idBookMaker = 1))
      (c3CounterDB.bets.filter (fun b => b.idBookMaker = 1)) = 1 / 200 ∧
    (1 / 100 : ℚ) ≠ 1 / 200 := by
  refine ⟨?_, ?_, by norm_num⟩
  · simp [getBookMakerBalance, c3CounterDB, List.find?, List.filter]
    norm_num [round2]
  · simp [claimedBookMakerBalance, c3CounterDB, List.filter]

/-- C3 as amended: the query actually sums `result` over *all* of the
bookmaker's bets and rounds the total to 2 decimals.  For whole-cent data in
which pending bets carry their derived `result = 0` (the invariant the
calculator establishes), this equals the claimed
`initialBalance + Σdeposits − Σwithdrawals + Σresult(settled) −
Σliability(pending)` exactly, for any such set of bets and transactions of
that bookmaker. -/
theorem claim_C3_amended (db : DB) (id : ℕ) (bm : BookMakerRow)
    (hfind : db.bookMakers.find? (fun b => b.id = id) = some bm)
    (hpending : ∀ b ∈ db.bets, b.idBookMaker = id → b.status = "pending" → b.result = 0)
    (hinit : Is2dp bm.initialBalance)
    (hamount : ∀ t ∈ db.transactions, Is2dp t.amount)
    (hresult : ∀ b ∈ db.bets, Is2dp b.result)
    (hliab : ∀ b ∈ db.bets, Is2dp b.liability) :
    (getBookMakerBalance db id).map (fun r => r.balance) =
      some (claimedBookMakerBalance bm.initialBalance
        (db.transactions.filter (fun t => t.idBookMaker = id))
        (db.bets.filter (fun b => b.idBookMaker = id))) := by
  unfold getBookMakerBalance
  rw [hfind]
  simp only [Option.map_some', Option.some.injEq]
  unfold claimedBookMakerBalance
  set txs := db.transactions.filter (fun t => t.idBookMaker = id) with htxs
  set bets := db.bets.filter (fun b => b.idBookMaker = id) with hbets
  have htxmem : ∀ t ∈ txs, t ∈ db.transactions := by
    intro t ht
    rw [htxs] at ht
    exact (List.mem_filter.mp ht).1
  have hbetmem : ∀ b ∈ bets, b ∈ db.bets ∧ b.idBookMaker = id := by
    intro b hb
    rw [hbets] at hb
    have := List.mem_filter.mp hb
    exact ⟨this.1, by simpa using this.2⟩
  -- split the result sum into pending and settled parts; the pending part is 0
  have hsplit : sumBy bets (fun b => b.result) =
      sumBy (bets.filter (fun b => b.status ≠ "pending")) (fun b => b.result) := by
    rw [sumBy_partition_pending bets (fun b => b.result)]
    have : sumBy (bets.filter (fun b => b.status = "pending")) (fun b => b.result) = 0 := by
      apply sumBy_eq_zero
      intro b hb
      have h1 := List.mem_filter.mp hb
      have h2 := hbetmem b h1.1
      exact hpending b h2.1 h2.2 (by simpa using h1.2)
    rw [this, zero_add]
  rw [sumBy_ite_filter txs (fun t => t.type = "deposit") (fun t => t.amount)]
  rw [sumBy_ite_filter txs (fun t => t.type = "withdrawal") (fun t => t.amount)]
  rw [sumBy_ite_filter bets (fun b => b.status = "pending") (fun b => b.liability)]
  rw [hsplit]
  -- the total is a whole-cent value, so the final rounding is the identity
  apply round2_eq_of_is2dp
  have hd : Is2dp (sumBy (txs.filter (fun t => t.type = "deposit")) (fun t => t.amount)) := by
    apply is2dp_sumBy
    intro t ht
    exact hamount t (htxmem t (List.mem_of_mem_filter ht))
  have hw : Is2dp (sumBy (txs.filter (fun t => t.type = "withdrawal")) (fun t => t.amount)) := by
    apply is2dp_sumBy
    intro t ht
    exact hamount t (htxmem t (List.mem_of_mem_filter ht))
  have hr : Is2dp (sumBy (bets.filter (fun b => b.status ≠ "pending")) (fun b => b.result)) := by
    apply is2dp_sumBy
    intro b hb
    exact hresult b (hbetmem b (List.mem_of_mem_filter hb)).1
  have hl : Is2dp (sumBy (bets.filter (fun b => b.status = "pending")) (fun b => b.liability)) := by
    apply is2dp_sumBy
    intro b hb
    exact hliab b (hbetmem b (List.mem_of_mem_filter hb)).1
  exact is2dp_sub (is2dp_add (is2dp_sub (is2dp_add hinit hd) hw) hr) hl

/-- Whole-cent data for the C3 witness: initial balance 100, one deposit 50,
one withdrawal 20, one pending back bet with liability 10 and result 0. -/
def c3WitnessDB : DB :=
  { bookMakers := [⟨1, "A", 5, 100⟩]
    bets := [⟨1, 1, "real", "backBet", 1, 1, "e", "b", 10, 2, "pending", 10, 0, none⟩]
    transactions := [⟨1, 1, "deposit", 50, 1, none⟩, ⟨2, 1, "withdrawal", 20, 2, none⟩]
    nextBetId := 2 }

/-- C3 witness: the amended balance equation holds on `c3WitnessDB`, where it
evaluates to `100 + 50 − 20 + 0 − 10 = 120`. -/
theorem claim_C3_witness :
    (getBookMakerBalance c3WitnessDB 1).map (fun r => r.balance) =
      some (claimedBookMakerBalance 100
        (c3WitnessDB.transactions.filter (fun t => t.idBookMaker = 1))
        (c3WitnessDB.bets.filter (fun b => b.idBookMaker = 1))) ∧
    claimedBookMakerBalance 100
      (c3WitnessDB.transactions.filter (fun t => t.idBookMaker = 1))
      (c3WitnessDB.bets.filter (fun b => b.idBookMaker = 1)) = 120 := by
  constructor
  · exact claim_C3_amended c3WitnessDB 1 ⟨1, "A", 5, 100⟩ rfl (by decide)
      ⟨10000, by norm_num⟩
      (by
        intro t ht
        fin_cases ht
        · exact ⟨5000, by norm_num⟩
        · exact ⟨2000, by norm_num⟩)
      (by
        intro b hb
        fin_cases hb
        exact ⟨0, by norm_num⟩)
      (by
        intro b hb
        fin_cases hb
        exact ⟨1000, by norm_num⟩)
  · simp [claimedBookMakerBalance, c3WitnessDB, List.filter]
    norm_num

/-! ## JavaScript number model for the aggregate ratios -/

/-- A JavaScript number restricted to what the aggregate ratio formulas can
produce: a finite (exact) rational, `NaN`, or `±Infinity`. -/
inductive JNum where
  | nan : JNum
  | inf : JNum
  | ninf : JNum
  | fin : ℚ → JNum
deriving DecidableEq

/-- JS division `a / b` of two finite numbers: `0/0 = NaN`,
`±x/0 = ±Infinity`. -/
def jdivQ (a b : ℚ) : JNum :=
  if b = 0 then
    if a = 0 then JNum.nan
    else if a > 0 then JNum.inf
    else JNum.ninf
  else JNum.fin (a / b)

/-- Multiplication of a JS number by the literal 100 (`x * 100`). -/
def jmul100 : JNum → JNum
  | JNum.nan => JNum.nan
  | JNum.inf => JNum.inf
  | JNum.ninf => JNum.ninf
  | JNum.fin q => JNum.fin (q * 100)

/-- `x || 0` on a number: `NaN` and `±0` are falsy (both yield 0, and
`0 || 0 = 0` makes the finite case the identity); every other number is
returned unchanged. -/
def jOr0 : JNum → JNum
  | JNum.nan => JNum.fin 0
  | JNum.fin q => JNum.fin q
  | JNum.inf => JNum.inf
  | JNum.ninf => JNum.ninf

/-- `Number(x.toFixed(2))`: `NaN` and `±Infinity` print as `"NaN"` /
`"±Infinity"` and parse back to themselves; a finite value is rounded to two
decimals. -/
def jToFixed2 : JNum → JNum
  | JNum.nan => JNum.nan
  | JNum.inf => JNum.inf
  | JNum.ninf => JNum.ninf
  | JNum.fin q => JNum.fin (round2 q)

/-! ## Claim C4 — the aggregate division-by-zero policy -/

/-- `winRate` from `getBetStats` (bets controller):
`Number(((stat.wonBets / (stat.wonBets + stat.lostBets)) * 100 || 0).toFixed(2))`,
with `wonBets`/`lostBets` the SQL `SUM(CASE WHEN status = ... THEN 1 ELSE 0)` counts. -/
def getBetStats_winRate (wonBets lostBets : ℕ) : JNum :=
  jToFixed2 (jOr0 (jmul100 (jdivQ (wonBets : ℚ) ((wonBets : ℚ) + (lostBets : ℚ)))))

/-- `roi` from `getBetStats`:
`Number(((stat.totalResult / stat.totalStaked) * 100 || 0).toFixed(2))`. -/
def getBetStats_roi (totalResult totalStaked : ℚ) : JNum :=
  jToFixed2 (jOr0 (jmul100 (jdivQ totalResult totalStaked)))

/-- Per-bookmaker `conversionRate` from `getFreebetConversionRate`:
`Number(((s.totalProfit / s.totalFreebetAmount) * 100)?.toFixed(2) || 0)`.
The division result is a number — never nullish — so `?.` always invokes
`toFixed`; `toFixed` returns a nonempty, hence truthy, string, so the `|| 0`
guard never fires and is omitted here; a SQL `NULL` `totalProfit` (no settled
`freeBet` bets for the bookmaker) coerces to 0 in the division. -/
def conversionRate (totalProfit : Option ℚ) (totalFreebetAmount : ℚ) : JNum :=
  jToFixed2 (jmul100 (jdivQ (totalProfit.getD 0) totalFreebetAmount))

/-- `overallConversionRate` from `getFreebetConversionRate`:
`Number(((totals.totalProfit / totals.totalAmount) * 100).toFixed(2))` —
computed over the per-bookmaker totals, with no guard at all. -/
def overallConversionRate (totalProfit totalAmount : ℚ) : JNum :=
  jToFixed2 (jmul100 (jdivQ totalProfit totalAmount))

/-- C4, counterexample: with total freebet amount 0 (storable: `createFreebet`
rejects a falsy `amount` but accepts negative ones, so rows `+5` and `−5`
sum to 0) and `totalProfit` NULL, the per-bookmaker conversion rate is `NaN`,
not 0 — `|| 0` is applied to the string `toFixed` produced, and `"NaN"` is a
truthy string. -/
theorem claim_C4_counterexample :
    conversionRate none 0 = JNum.nan ∧ JNum.nan ≠ JNum.fin 0 := by
  constructor
  · simp [conversionRate, jdivQ, jmul100, jToFixed2]
  · simp

theorem jratio_zero_denom_ne_fin (q : ℚ) :
    jToFixed2 (jmul100 (jdivQ q 0)) ≠ JNum.fin 0 := by
  unfold jdivQ
  rcases lt_trichotomy q 0 with h | h | h
  · simp [h.ne, not_lt.mpr h.le, jmul100, jToFixed2]
  · subst h
    simp [jmul100, jToFixed2]
  · simp [h.ne', h, jmul100, jToFixed2]

/-- C4 as amended: the win rate does return 0 when there are zero resolved
bets, and the ROI's `|| 0` guard maps the `0/0` case to 0 — but with zero
total stake and a nonzero total result the ROI is `±Infinity`, and the
freebet conversion rate (per bookmaker and overall) never resolves its
zero-denominator case to 0 at all: it evaluates to `NaN` (or `±Infinity`),
because the guard is applied to the truthy string `toFixed` returns (and the
overall rate has no guard). -/
theorem claim_C4_amended :
    (∀ wonBets lostBets : ℕ, wonBets = 0 → lostBets = 0 →
      getBetStats_winRate wonBets lostBets = JNum.fin 0) ∧
    (∀ totalResult totalStaked : ℚ, totalStaked = 0 →
      (getBetStats_roi totalResult totalStaked = JNum.fin 0 ↔ totalResult = 0)) ∧
    (∀ totalProfit : Option ℚ, conversionRate totalProfit 0 ≠ JNum.fin 0) ∧
    conversionRate none 0 = JNum.nan ∧
    (∀ totalProfit : ℚ, overallConversionRate totalProfit 0 ≠ JNum.fin 0) := by
  refine ⟨?_, ?_, ?_, ?_, ?_⟩
  · intro wonBets lostBets hw hl
    subst hw
    subst hl
    simp [getBetStats_winRate, jdivQ, jmul100, jOr0, jToFixed2, round2_zero]
  · intro totalResult totalStaked hts
    subst hts
    by_cases h : totalResult = 0
    · subst h
      simp [getBetStats_roi, jdivQ, jmul100, jOr0, jToFixed2, round2_zero]
    · rcases lt_or_gt_of_ne h with hlt | hgt
      · simp only [getBetStats_roi, jdivQ, if_pos rfl, if_neg h,
          if_neg (not_lt.mpr hlt.le), jmul100, jOr0, jToFixed2]
        simp [h]
      · simp only [getBetStats_roi, jdivQ, if_pos rfl, if_neg h, if_pos hgt,
          jmul100, jOr0, jToFixed2]
        simp [h]
  · intro totalProfit
    exact jratio_zero_denom_ne_fin _
  · simp [conversionRate, jdivQ, jmul100, jToFixed2]
  · intro totalProfit
    exact jratio_zero_denom_ne_fin _

/-- C4 witness: the amended statements at concrete inputs — no resolved bets
gives win rate 0; ROI at zero stake and zero result is 0; conversion rates at
zero freebet amount are not 0. -/
theorem claim_C4_witness :
    getBetStats_winRate 0 0 = JNum.fin 0 ∧
    (getBetStats_roi 0 0 = JNum.fin 0 ↔ (0 : ℚ) = 0) ∧
    conversionRate (some 5) 0 ≠ JNum.fin 0 ∧
    overallConversionRate 7 0 ≠ JNum.fin 0 :=
  ⟨claim_C4_amended.1 0 0 rfl rfl, claim_C4_amended.2.1 0 0 rfl,
    claim_C4_amended.2.2.1 (some 5), claim_C4_amended.2.2.2.2 7⟩

/-! ## `getBalanceByPeriod` (`src/utils/helpers.js`) -/

/-- Transactions with `date BETWEEN startDate AND endDate` (inclusive). -/
def windowTransactions (db : DB) (startDate endDate : Int) : List TransactionRow :=
  db.transactions.filter (fun t => startDate ≤ t.date ∧ t.date ≤ endDate)

/-- Bets with `betDate BETWEEN startDate AND endDate` (inclusive). -/
def windowBets (db : DB) (startDate endDate : Int) : List BetRow :=
  db.bets.filter (fun b => startDate ≤ b.betDate ∧ b.betDate ≤ endDate)

/-- Per-group `SUM(CASE WHEN type = 'deposit' THEN amount ELSE 0 END)` of the
transactions query of `getBalanceByPeriod`, for one joined bookmaker. -/
def periodDeposits (db : DB) (s e : Int) (bmId : ℕ) : ℚ :=
  sumBy ((windowTransactions db s e).filter (fun t => t.idBookMaker = bmId))
    (fun t => if t.type = "deposit" then t.amount else 0)

/-- Per-group `SUM(CASE WHEN type = 'withdrawal' THEN amount ELSE 0 END)`. -/
def periodWithdrawals (db : DB) (s e : Int) (bmId : ℕ) : ℚ :=
  sumBy ((windowTransactions db s e).filter (fun t => t.idBookMaker = bmId))
    (fun t => if t.type = "withdrawal" then t.amount else 0)

/-- Per-group `SUM(result)` of the bets query of `getBalanceByPeriod` (all
statuses). -/
def periodResults (db : DB) (s e : Int) (bmId : ℕ) : ℚ :=
  sumBy ((windowBets db s e).filter (fun b => b.idBookMaker = bmId)) (fun b => b.result)

/-- Per-group `SUM(CASE WHEN status = 'pending' THEN liability ELSE 0 END)`. -/
def periodLiability (db : DB) (s e : Int) (bmId : ℕ) : ℚ :=
  sumBy ((windowBets db s e).filter (fun b => b.idBookMaker = bmId))
    (fun b => if b.status = "pending" then b.liability else 0)

/-- The transactions query: one row per bookmaker (via the inner join) having
at least one transaction in the window, grouped by `bm.id, bm.name`. -/
def periodTransactionGroups (db : DB) (s e : Int) : List (String × ℚ × ℚ) :=
  (db.bookMakers.filter
      (fun bm => (windowTransactions db s e).any (fun t => t.idBookMaker = bm.id))).map
    (fun bm => (bm.name, periodDeposits db s e bm.id, periodWithdrawals db s e bm.id))

/-- The bets query: one row per bookmaker having at least one bet in the
window, grouped by `bm.id, bm.name`. -/
def periodBetGroups (db : DB) (s e : Int) : List (String × ℚ × ℚ) :=
  (db.bookMakers.filter
      (fun bm => (windowBets db s e).any (fun b => b.idBookMaker = bm.id))).map
    (fun bm => (bm.name, periodResults db s e bm.id, periodLiability db s e bm.id))

/-- One entry of the `balanceByBookMaker` object built by
`getBalanceByPeriod`. -/
structure PeriodEntry where
  deposits : ℚ
  withdrawals : ℚ
  results : ℚ
  liability : ℚ
deriving DecidableEq

/-- `bm.balance = bm.deposits - bm.withdrawals + bm.results - bm.liability`,
computed over `Object.values(balanceByBookMaker)`. -/
def entryBalance (x : PeriodEntry) : ℚ :=
  x.deposits - x.withdrawals + x.results - x.liability

/-- The `bets.forEach` body: set `results`/`liability` (each through
`Number(x.toFixed(2))`) on the entry keyed by the bookmaker name, inserting
`{deposits: 0, withdrawals: 0}` first when the key is absent. -/
def setBetSide : List (String × PeriodEntry) → String → ℚ → ℚ → List (String × PeriodEntry)
  | [], n, r, l => [(n, ⟨0, 0, round2 r, round2 l⟩)]
  | (k, x) :: rest, n, r, l =>
    if k = n then (k, { x with results := round2 r, liability := round2 l }) :: rest
    else (k, x) :: setBetSide rest n r l

/-- `balanceByBookMaker`: the `transactions.forEach` pass seeds each key with
rounded deposits/withdrawals and zero bet fields; the `bets.forEach` pass
then updates or inserts via `setBetSide`. -/
def periodBalanceByBookMaker (db : DB) (s e : Int) : List (String × PeriodEntry) :=
  (periodBetGroups db s e).foldl (fun m g => setBetSide m g.1 g.2.1 g.2.2)
    ((periodTransactionGroups db s e).map
      (fun g => (g.1, PeriodEntry.mk (round2 g.2.1) (round2 g.2.2) 0 0)))

/-- The formula claim C5 asserts: "the same balance formula as the bookmaker
balance", i.e. `initialBalance + deposits − withdrawals + results −
liability` (modelled from the claim's words, for comparison). -/
def claimedPeriodBalance (initialBalance deposits withdrawals results liability : ℚ) : ℚ :=
  initialBalance + deposits - withdrawals + results - liability

theorem lookup_pair_map_eq_none {α ν : Type} (l : List α) (name : α → String) (F : α → ν)
    (k : String) (hk : k ∉ l.map name) :
    ((l.map (fun x => (name x, F x))).lookup k) = none := by
  induction l with
  | nil => rfl
  | cons a t ih =>
    simp only [List.map_cons, List.mem_cons, not_or] at hk
    have hbeq : (k == name a) = false := beq_eq_false_iff_ne.mpr hk.1
    simp [List.lookup, hbeq, ih hk.2]

theorem lookup_filterMap_name {α ν : Type} (l : List α) (name : α → String) (q : α → Bool)
    (F : α → ν) (hnd : (l.map name).Nodup) {a : α} (ha : a ∈ l) :
    (((l.filter q).map (fun x => (name x, F x))).lookup (name a)) =
      if q a then some (F a) else none := by
  induction l with
  | nil => cases ha
  | cons b t ih =>
    simp only [List.map_cons, List.nodup_cons] at hnd
    rcases List.mem_cons.mp ha with rfl | hat
    · by_cases hq : q a
      · simp [List.filter_cons, hq, List.lookup]
      · rw [if_neg hq]
        simp only [List.filter_cons, hq, cond_false]
        apply lookup_pair_map_eq_none
        intro hmem
        obtain ⟨x, hx, hxa⟩ := List.mem_map.mp hmem
        exact hnd.1 (hxa ▸ List.mem_map_of_mem name (List.mem_of_mem_filter hx))
    · have hna : (name a == name b) = false :=
        beq_eq_false_iff_ne.mpr (fun hEq => hnd.1 (hEq ▸ List.mem_map_of_mem name hat))
      by_cases hq : q b
      · simp [List.filter_cons, hq, List.lookup, hna, ih hnd.2 hat]
      · simp [List.filter_cons, hq, ih hnd.2 hat]

theorem lookup_setBetSide_self (m : List (String × PeriodEntry)) (n : String) (r l : ℚ) :
    (setBetSide m n r l).lookup n =
      some (match m.lookup n with
        | some x => { x with results := round2 r, liability := round2 l }
        | none => ⟨0, 0, round2 r, round2 l⟩) := by
  induction m with
  | nil => simp [setBetSide, List.lookup]
  | cons p rest ih =>
    obtain ⟨k, x⟩ := p
    by_cases hk : k = n
    · subst hk
      simp [setBetSide, List.lookup]
    · have hbeq : (n == k) = false := beq_eq_false_iff_ne.mpr (fun hEq => hk hEq.symm)
      simp [setBetSide, hk, List.lookup, hbeq, ih]

theorem lookup_setBetSide_other (m : List (String × PeriodEntry)) (n n' : String)
    (h : n' ≠ n) (r l : ℚ) :
    (setBetSide m n r l).lookup n' = m.lookup n' := by
  induction m with
  | nil =>
    simp [setBetSide, List.lookup, beq_eq_false_iff_ne.mpr h]
  | cons p rest ih =>
    obtain ⟨k, x⟩ := p
    by_cases hk : k = n
    · subst hk
      simp [setBetSide, List.lookup, beq_eq_false_iff_ne.mpr h]
    · by_cases hk' : k = n'
      · subst hk'
        simp [setBetSide, hk, List.lookup]
      · have hbeq : (n' == k) = false := beq_eq_false_iff_ne.mpr (fun hEq => hk' hEq.symm)
        simp [setBetSide, hk, List.lookup, hbeq, ih]

theorem lookup_foldl_setBetSide_notmem (groups : List (String × ℚ × ℚ))
    (m : List (String × PeriodEntry)) (n : String)
    (hn : ∀ g ∈ groups, g.1 ≠ n) :
    ((groups.foldl (fun m g => setBetSide m g.1 g.2.1 g.2.2) m).lookup n) = m.lookup n := by
  induction groups generalizing m with
  | nil => rfl
  | cons g gs ih =>
    simp only [List.foldl_cons]
    rw [ih _ (fun g' hg' => hn g' (List.mem_cons_of_mem g hg')),
      lookup_setBetSide_other _ _ _ (fun hEq => hn g (List.mem_cons_self g gs) hEq.symm)]

theorem lookup_foldl_setBetSide_mem (groups : List (String × ℚ × ℚ))
    (hnd : (groups.map Prod.fst).Nodup) {n : String} {r l : ℚ}
    (hg : (n, r, l) ∈ groups) (m : List (String × PeriodEntry)) :
    ((groups.foldl (fun m g => setBetSide m g.1 g.2.1 g.2.2) m).lookup n) =
      some (match m.lookup n with
        | some x => { x with results := round2 r, liability := round2 l }
        | none => ⟨0, 0, round2 r, round2 l⟩) := by
  induction groups generalizing m with
  | nil => cases hg
  | cons g gs ih =>
    simp only [List.map_cons, List.nodup_cons] at hnd
    rcases List.mem_cons.mp hg with rfl | hgs
    · have hkey : n ∉ List.map Prod.fst gs := hnd.1
      simp only [List.foldl_cons]
      rw [lookup_foldl_setBetSide_notmem gs _ n
        (fun g' hg' hEq => hkey (hEq ▸ List.mem_map_of_mem Prod.fst hg'))]
      exact lookup_setBetSide_self m n r l
    · have hkey : g.1 ∉ List.map Prod.fst gs := hnd.1
      have hne : n ≠ g.1 := by
        intro hEq
        have : n ∈ List.map Prod.fst gs := List.mem_map_of_mem Prod.fst hgs
        exact hkey (hEq ▸ this)
      simp only [List.foldl_cons]
      rw [ih hnd.2 hgs, lookup_setBetSide_other _ _ _ hne]

theorem periodBetGroups_keys_nodup (db : DB) (s e : Int)
    (hnames : (db.bookMakers.map (fun bm => bm.name)).Nodup) :
    ((periodBetGroups db s e).map Prod.fst).Nodup := by
  unfold periodBetGroups
  rw [List.map_map]
  exact List.Nodup.sublist
    (List.Sublist.map _ (List.filter_sublist _)) hnames

theorem lookup_periodInit (db : DB) (s e : Int)
    (hnames : (db.bookMakers.map (fun bm => bm.name)).Nodup)
    {bm : BookMakerRow} (hbm : bm ∈ db.bookMakers) :
    (((periodTransactionGroups db s e).map
        (fun g => (g.1, PeriodEntry.mk (round2 g.2.1) (round2 g.2.2) 0 0))).lookup bm.name) =
      if (windowTransactions db s e).any (fun t => t.idBookMaker = bm.id) then
        some (PeriodEntry.mk (round2 (periodDeposits db s e bm.id))
          (round2 (periodWithdrawals db s e bm.id)) 0 0)
      else none := by
  unfold periodTransactionGroups
  rw [List.map_map]
  exact lookup_filterMap_name db.bookMakers (fun bm => bm.name)
    (fun bm => (windowTransactions db s e).any (fun t => t.idBookMaker = bm.id))
    (fun bm => PeriodEntry.mk (round2 (periodDeposits db s e bm.id))
      (round2 (periodWithdrawals db s e bm.id)) 0 0) hnames hbm

theorem mem_periodBetGroups (db : DB) (s e : Int) {bm : BookMakerRow}
    (hbm : bm ∈ db.bookMakers)
    (hb : (windowBets db s e).any (fun b => b.idBookMaker = bm.id)) :
    (bm.name, periodResults db s e bm.id, periodLiability db s e bm.id) ∈
      periodBetGroups db s e := by
  unfold periodBetGroups
  exact List.mem_map_of_mem _ (List.mem_filter.mpr ⟨hbm, hb⟩)

theorem not_key_periodBetGroups (db : DB) (s e : Int)
    (hnames : (db.bookMakers.map (fun bm => bm.name)).Nodup)
    {bm : BookMakerRow} (hbm : bm ∈ db.bookMakers)
    (hb : ¬ (windowBets db s e).any (fun b => b.idBookMaker = bm.id) = true) :
    ∀ g ∈ periodBetGroups db s e, g.1 ≠ bm.name := by
  intro g hg hEq
  unfold periodBetGroups at hg
  obtain ⟨bm', hbm', hgEq⟩ := List.mem_map.mp hg
  have hf := List.mem_filter.mp hbm'
  have hname : bm'.name = bm.name := by
    rw [← hgEq] at hEq
    exact hEq
  have hbm'eq : bm' = bm :=
    List.inj_on_of_nodup_map hnames hf.1 hbm hname
  rw [hbm'eq] at hf
  exact hb hf.2

theorem periodTx_zero (db : DB) (s e : Int) (bmId : ℕ)
    (ht : ¬ (windowTransactions db s e).any (fun t => t.idBookMaker = bmId) = true) :
    periodDeposits db s e bmId = 0 ∧ periodWithdrawals db s e bmId = 0 := by
  have hfil : (windowTransactions db s e).filter (fun t => t.idBookMaker = bmId) = [] := by
    rw [List.filter_eq_nil_iff]
    intro t htm
    simp only [List.any_eq_true, not_exists] at ht
    intro hdec
    exact ht t ⟨htm, hdec⟩
  constructor <;> simp [periodDeposits, periodWithdrawals, hfil]

theorem periodBet_zero (db : DB) (s e : Int) (bmId : ℕ)
    (hb : ¬ (windowBets db s e).any (fun b => b.idBookMaker = bmId) = true) :
    periodResults db s e bmId = 0 ∧ periodLiability db s e bmId = 0 := by
  have hfil : (windowBets db s e).filter (fun b => b.idBookMaker = bmId) = [] := by
    rw [List.filter_eq_nil_iff]
    intro b hbm
    simp only [List.any_eq_true, not_exists] at hb
    intro hdec
    exact hb b ⟨hbm, hdec⟩
  constructor <;> simp [periodResults, periodLiability, hfil]

/-- C5 as amended: the period-balance query computes, per bookmaker,
`deposits − withdrawals + results − liability` — the bookmaker-balance
formula **without the `initialBalance` term** (equivalently, with it zeroed),
each component summed over rows in the inclusive `[startDate, endDate]`
window and rounded to 2 decimals, with `results` summing over all window
bets, not only settled ones.  A bookmaker appearing on only one side still
appears with the missing side's components defaulted to 0 (the uniform
`round2` of the empty sum), and a bookmaker with no window rows at all is
absent. -/
theorem claim_C5_amended (db : DB) (s e : Int)
    (hnames : (db.bookMakers.map (fun bm => bm.name)).Nodup) :
    ∀ bm ∈ db.bookMakers,
      (((windowTransactions db s e).any (fun t => t.idBookMaker = bm.id) = true ∨
        (windowBets db s e).any (fun b => b.idBookMaker = bm.id) = true) →
        (periodBalanceByBookMaker db s e).lookup bm.name =
          some ⟨round2 (periodDeposits db s e bm.id),
            round2 (periodWithdrawals db s e bm.id),
            round2 (periodResults db s e bm.id),
            round2 (periodLiability db s e bm.id)⟩ ∧
        ((periodBalanceByBookMaker db s e).lookup bm.name).map entryBalance =
          some (claimedPeriodBalance 0
            (round2 (periodDeposits db s e bm.id))
            (round2 (periodWithdrawals db s e bm.id))
            (round2 (periodResults db s e bm.id))
            (round2 (periodLiability db s e bm.id)))) ∧
      (¬ ((windowTransactions db s e).any (fun t => t.idBookMaker = bm.id) = true ∨
        (windowBets db s e).any (fun b => b.idBookMaker = bm.id) = true) →
        (periodBalanceByBookMaker db s e).lookup bm.name = none) := by
  intro bm hbm
  have hbknd := periodBetGroups_keys_nodup db s e hnames
  constructor
  · intro hside
    have hmain : (periodBalanceByBookMaker db s e).lookup bm.name =
        some ⟨round2 (periodDeposits db s e bm.id),
          round2 (periodWithdrawals db s e bm.id),
          round2 (periodResults db s e bm.id),
          round2 (periodLiability db s e bm.id)⟩ := by
      by_cases hb : (windowBets db s e).any (fun b => b.idBookMaker = bm.id) = true
      · unfold periodBalanceByBookMaker
        rw [lookup_foldl_setBetSide_mem _ hbknd (mem_periodBetGroups db s e hbm hb)]
        rw [lookup_periodInit db s e hnames hbm]
        by_cases ht : (windowTransactions db s e).any (fun t => t.idBookMaker = bm.id) = true
        · rw [if_pos ht]
        · rw [if_neg ht]
          obtain ⟨hd0, hw0⟩ := periodTx_zero db s e bm.id ht
          rw [hd0, hw0, round2_zero]
      · have ht : (windowTransactions db s e).any (fun t => t.idBookMaker = bm.id) = true :=
          hside.resolve_right hb
        unfold periodBalanceByBookMaker
        rw [lookup_foldl_setBetSide_notmem _ _ _
          (not_key_periodBetGroups db s e hnames hbm hb)]
        rw [lookup_periodInit db s e hnames hbm, if_pos ht]
        obtain ⟨hr0, hl0⟩ := periodBet_zero db s e bm.id hb
        rw [hr0, hl0, round2_zero]
    refine ⟨hmain, ?_⟩
    rw [hmain]
    simp [entryBalance, claimedPeriodBalance]
  · intro hnone
    rw [not_or] at hnone
    unfold periodBalanceByBookMaker
    rw [lookup_foldl_setBetSide_notmem _ _ _
      (not_key_periodBetGroups db s e hnames hbm hnone.2)]
    rw [lookup_periodInit db s e hnames hbm, if_neg hnone.1]

/-- The full response of `getBalanceByPeriod`: the rounded `totalBalance`
over all entries together with the per-bookmaker map. -/
def getBalanceByPeriod (db : DB) (s e : Int) : ℚ × List (String × PeriodEntry) :=
  (round2 (sumBy (periodBalanceByBookMaker db s e) (fun p => entryBalance p.2)),
    periodBalanceByBookMaker db s e)

/-- Data making claim C5 fail: bookmaker `A` with `initialBalance = 100` and
a single in-window deposit of 10. -/
def c5CounterDB : DB :=
  { bookMakers := [⟨1, "A", 0, 100⟩]
    bets := []
    transactions := [⟨1, 1, "deposit", 10, 5, none⟩]
    nextBetId := 1 }

/-- C5, counterexample: the period balance of `A` is 10 — the query never
reads `initialBalance`, while the claimed "same formula as the bookmaker
balance" gives `100 + 10 = 110`. -/
theorem claim_C5_counterexample :
    ((periodBalanceByBookMaker c5CounterDB 0 10).lookup "A").map entryBalance = some 10 ∧
    claimedPeriodBalance 100 10 0 0 0 = 110 ∧
    (10 : ℚ) ≠ 110 := by
  refine ⟨?_, by norm_num [claimedPeriodBalance], by norm_num⟩
  simp [periodBalanceByBookMaker, periodBetGroups, periodTransactionGroups,
    windowTransactions, windowBets, c5CounterDB, List.filter, List.lookup,
    periodDeposits, periodWithdrawals, entryBalance]
  norm_num [round2]

/-- C5 witness: the amended per-bookmaker equation instantiated on
`c5CounterDB` at bookmaker `A`. -/
theorem claim_C5_witness :
    ((periodBalanceByBookMaker c5CounterDB 0 10).lookup "A").map entryBalance =
      some (claimedPeriodBalance 0
        (round2 (periodDeposits c5CounterDB 0 10 1))
        (round2 (periodWithdrawals c5CounterDB 0 10 1))
        (round2 (periodResults c5CounterDB 0 10 1))
        (round2 (periodLiability c5CounterDB 0 10 1))) :=
  ((claim_C5_amended c5CounterDB 0 10 (by decide) ⟨1, "A", 0, 100⟩ (by decide)).1
    (Or.inl (by decide))).2

/-! ## Bet controller (`src/controllers/bets` — `src/unnamed/part_000`) -/

/-- The part of the HTTP reply the claims are about. -/
structure HttpResponse where
  status : ℕ
deriving DecidableEq

/-- The `validTypes` array used by the bet controller's validations. -/
def validBetTypes : List String := ["backBet", "layBet", "mugBet", "freeBet", "personal", "other"]

/-- JS truthiness of a possibly-absent numeric id: `undefined` and 0 are
falsy. -/
def truthyNat : Option ℕ → Bool
  | none => false
  | some n => n != 0

/-- JS truthiness of a possibly-absent string: `undefined` and `''` are
falsy. -/
def truthyStr : Option String → Bool
  | none => false
  | some s => s != ""

/-- JS truthiness of a possibly-absent number: `undefined` and 0 are falsy. -/
def truthyQ : Option ℚ → Bool
  | none => false
  | some q => q != 0

/-- Dates travel as `'YYYY-MM-DD'` strings — nonempty, hence truthy when
present; they are modelled as integers, so truthiness is presence. -/
def truthyDate : Option Int → Bool
  | none => false
  | some _ => true

/-- The request body of `createBet`; absent fields are `undefined`. -/
structure CreateBetReq where
  idBookMaker : Option ℕ
  bank : Option String
  betType : Option String
  betDate : Option Int
  eventDate : Option Int
  event : Option String
  bet : Option String
  stake : Option ℚ
  odds : Option ℚ
  status : Option String
  info : Option String
deriving DecidableEq

/-- `createBet`: required-field truthiness check, `bank`/`betType`/`status`
enum validation, bookmaker existence, then
`liability = calculateLiability(status, betType, stake, odds)` and
`result = calculateResult(status, betType, stake, odds, liability,
bookMaker.commission)` — the row has no `commission` property (the schema
column is `comission`), so that argument is `undefined` and `calculateResult`
substitutes its default parameter `commission = 0` — followed by the INSERT. -/
def createBet (db : DB) (r : CreateBetReq) : HttpResponse × DB :=
  if ¬ (truthyNat r.idBookMaker ∧ truthyStr r.bank ∧ truthyStr r.betType ∧
      truthyDate r.betDate ∧ truthyDate r.eventDate ∧ truthyStr r.event ∧
      truthyStr r.bet ∧ truthyQ r.stake ∧ truthyQ r.odds ∧ truthyStr r.status) then
    (⟨400⟩, db)
  else if ¬ (r.bank = some "real" ∨ r.bank = some "freebet") then (⟨400⟩, db)
  else if ¬ (r.betType.getD "" ∈ validBetTypes) then (⟨400⟩, db)
  else if ¬ (r.status = some "pending" ∨ r.status = some "won" ∨ r.status = some "lost") then
    (⟨400⟩, db)
  else
    match db.bookMakers.find? (fun bm => some bm.id = r.idBookMaker) with
    | none => (⟨404⟩, db)
    | some _bookMaker =>
      let status := r.status.getD ""
      let betType := r.betType.getD ""
      let stake := r.stake.getD 0
      let odds := r.odds.getD 0
      let liability := calculateLiability status betType stake odds
      let commissionArg : Option ℚ := none
      let result := calculateResult status betType stake odds liability (commissionArg.getD 0)
      let newBet : BetRow :=
        { id := db.nextBetId
          idBookMaker := r.idBookMaker.getD 0
          bank := r.bank.getD ""
          betType := betType
          betDate := r.betDate.getD 0
          eventDate := r.eventDate.getD 0
          event := r.event.getD ""
          bet := r.bet.getD ""
          stake := stake
          odds := odds
          status := status
          liability := liability
          result := result
          info := r.info }
      (⟨201⟩, { db with bets := db.bets ++ [newBet], nextBetId := db.nextBetId + 1 })

/-- C10 (confirmed): every successful `createBet` persists exactly one new
bet whose `liability` is `calculateLiability` of the request fields and whose
`result` is `calculateResult(status, betType, stake, odds, liability, 0)` —
commission 0 regardless of the owning bookmaker's configured `comission`. -/
theorem claim_C10_createBet_commission_zero (db : DB) (r : CreateBetReq)
    (resp : HttpResponse) (db' : DB)
    (h : createBet db r = (resp, db'))
    (hok : resp.status = 201) :
    ∃ b : BetRow,
      db'.bets = db.bets ++ [b] ∧
      b.liability = calculateLiability (r.status.getD "") (r.betType.getD "")
        (r.stake.getD 0) (r.odds.getD 0) ∧
      b.result = calculateResult (r.status.getD "") (r.betType.getD "")
        (r.stake.getD 0) (r.odds.getD 0) b.liability 0 := by
  unfold createBet at h
  split at h
  · simp only [Prod.mk.injEq] at h
    rw [← h.1] at hok
    simp at hok
  · split at h
    · simp only [Prod.mk.injEq] at h
      rw [← h.1] at hok
      simp at hok
    · split at h
      · simp only [Prod.mk.injEq] at h
        rw [← h.1] at hok
        simp at hok
      · split at h
        · simp only [Prod.mk.injEq] at h
          rw [← h.1] at hok
          simp at hok
        · split at h
          · simp only [Prod.mk.injEq] at h
            rw [← h.1] at hok
            simp at hok
          · simp only [Prod.mk.injEq] at h
            obtain ⟨h1, h2⟩ := h
            subst h2
            exact ⟨_, rfl, rfl, rfl⟩

/-- A bookmaker with a nonzero commission percentage (`comission = 5`), to
exhibit that the persisted result still uses commission 0. -/
def c10db : DB :=
  { bookMakers := [⟨1, "A", 5, 0⟩]
    bets := []
    transactions := []
    nextBetId := 1 }

def c10req : CreateBetReq :=
  { idBookMaker := some 1, bank := some "real", betType := some "backBet",
    betDate := some 10, eventDate := some 11, event := some "E", bet := some "B",
    stake := some 100, odds := some (5 / 2), status := some "won", info := none }

/-- C10 witness: on `c10db`/`c10req` the call succeeds (201) and the theorem
applies; here `calculateResult('won','backBet',100,2.5,·,0) = 150`, whereas
commission 5 would give `142.50`. -/
theorem claim_C10_witness :
    (createBet c10db c10req).1.status = 201 ∧
    ∃ b : BetRow,
      (createBet c10db c10req).2.bets = c10db.bets ++ [b] ∧
      b.liability = calculateLiability (c10req.status.getD "") (c10req.betType.getD "")
        (c10req.stake.getD 0) (c10req.odds.getD 0) ∧
      b.result = calculateResult (c10req.status.getD "") (c10req.betType.getD "")
        (c10req.stake.getD 0) (c10req.odds.getD 0) b.liability 0 := by
  have hok : (createBet c10db c10req).1.status = 201 := by
    norm_num [createBet, c10db, c10req, List.find?, validBetTypes,
      truthyNat, truthyStr, truthyQ, truthyDate]
    simp
  exact ⟨hok, claim_C10_createBet_commission_zero c10db c10req _ _ rfl hok⟩

/-- The request body of `updateBet`; absent fields are `undefined`. -/
structure UpdateBetReq where
  id : ℕ
  idBookMaker : Option ℕ
  bank : Option String
  betType : Option String
  betDate : Option Int
  eventDate : Option Int
  event : Option String
  bet : Option String
  stake : Option ℚ
  odds : Option ℚ
  status : Option String
  info : Option String
deriving DecidableEq

/-- The `updateBet` field validations: `field && !valid.includes(field)` —
an absent or empty (falsy) field skips the check. -/
def invalidOptEnum (o : Option String) (valid : List String) : Bool :=
  match o with
  | none => false
  | some s => s != "" && !(valid.contains s)

/-- The runtime errors `updateBet` can throw into its `catch` block. -/
inductive JsError where
  | typeError : JsError
  | referenceError : JsError
deriving DecidableEq

/-- `stake * (odds - 1)` on raw request fields: arithmetic on `undefined`
yields `NaN`. -/
def jsLayProduct (stake odds : Option ℚ) : JNum :=
  match stake, odds with
  | some s, some o => JNum.fin (s * (o - 1))
  | _, _ => JNum.nan

/-- `calculateLiability` evaluated on raw request-body values, as
`updateBet` calls it (`calculateLiability(status, betType, stake, odds)`):
an omitted field is `undefined`; `undefined !== 'pending'` holds, `undefined`
arithmetic gives `NaN`, and `undefined.toFixed(2)` in the default arm throws
a `TypeError`. -/
def jsCalculateLiability (status betType : Option String) (stake odds : Option ℚ) :
    Except JsError JNum :=
  if status ≠ some "pending" then .ok (JNum.fin 0)
  else if betType = some "layBet" then .ok (jToFixed2 (jsLayProduct stake odds))
  else if betType = some "freeBet" then .ok (JNum.fin 0)
  else
    match stake with
    | none => .error JsError.typeError
    | some s => .ok (JNum.fin (round2 s))

/-- `x || d` on a possibly-absent string. -/
def jsOrElseStr (o : Option String) (d : String) : String :=
  match o with
  | none => d
  | some s => if s = "" then d else s

/-- `x || d` on a possibly-absent number. -/
def jsOrElseQ (o : Option ℚ) (d : ℚ) : ℚ :=
  match o with
  | none => d
  | some q => if q = 0 then d else q

/-- `updateBet`: id lookup, optional-bookmaker existence check (`bookMaker`
is a `const` scoped *inside* that `if` block), optional field validations,
the `finalBetType`/`finalStake`/`finalOdds`/`finalStatus` merge (computed but
never used below), then
`liability = calculateLiability(status, betType, stake, odds)` on the raw
body values, and
`result = calculateResult(..., bookMaker.commission)` — `bookMaker` is not in
scope here, so evaluating the argument list always throws a `ReferenceError`,
the `catch` replies 500, and the UPDATE never runs. -/
def updateBet (db : DB) (r : UpdateBetReq) : HttpResponse × DB :=
  match db.bets.find? (fun b => b.id = r.id) with
  | none => (⟨404⟩, db)
  | some existingBet =>
    if truthyNat r.idBookMaker &&
        (db.bookMakers.find? (fun bm => some bm.id = r.idBookMaker)).isNone then
      (⟨404⟩, db)
    else if invalidOptEnum r.bank ["real", "freebet"] then (⟨400⟩, db)
    else if invalidOptEnum r.betType validBetTypes then (⟨400⟩, db)
    else if invalidOptEnum r.status ["pending", "won", "lost"] then (⟨400⟩, db)
    else
      let _finalBetType := jsOrElseStr r.betType existingBet.betType
      let _finalStake := jsOrElseQ r.stake existingBet.stake
      let _finalOdds := jsOrElseQ r.odds existingBet.odds
      let _finalStatus := jsOrElseStr r.status existingBet.status
      match jsCalculateLiability r.status r.betType r.stake r.odds with
      | .error _ => (⟨500⟩, db)
      | .ok _liability => (⟨500⟩, db)

/-- C9 (confirmed): whenever `updateBet` is called with a body that omits
`idBookMaker`, the update never succeeds (no 200) and the store is unchanged:
every path returns 404, 400, or — past validation — 500 from the thrown
error, before any write.  (The proof shows the stronger fact that this holds
for every request, since the `bookMaker` binding is out of scope even when
`idBookMaker` is supplied.) -/
theorem claim_C9_updateBet_never_succeeds (db : DB) (r : UpdateBetReq)
    (_h : r.idBookMaker = none) :
    (updateBet db r).1.status ≠ 200 ∧ (updateBet db r).2 = db := by
  unfold updateBet
  split
  · exact ⟨by simp, rfl⟩
  · split
    · exact ⟨by simp, rfl⟩
    · split
      · exact ⟨by simp, rfl⟩
      · split
        · exact ⟨by simp, rfl⟩
        · split
          · exact ⟨by simp, rfl⟩
          · split
            · exact ⟨by simp, rfl⟩
            · exact ⟨by simp, rfl⟩

def c9db : DB :=
  { bookMakers := [⟨1, "A", 5, 100⟩]
    bets := [⟨1, 1, "real", "backBet", 1, 1, "e", "b", 100, 2, "pending", 100, 0, none⟩]
    transactions := []
    nextBetId := 2 }

def c9req : UpdateBetReq :=
  { id := 1, idBookMaker := none, bank := none, betType := none, betDate := none,
    eventDate := none, event := none, bet := none, stake := none, odds := none,
    status := some "won", info := none }

/-- C9 witness: a concrete `updateBet` call without `idBookMaker` on an
existing bet: no success, store unchanged. -/
theorem claim_C9_witness :
    (updateBet c9db c9req).1.status ≠ 200 ∧ (updateBet c9db c9req).2 = c9db :=
  claim_C9_updateBet_never_succeeds c9db c9req rfl

/-- C7 failing input, store side: bookmaker 1 (`comission = 5`) owning
pending back bet 1 with stake 100, odds 2. -/
def c7db : DB :=
  { bookMakers := [⟨1, "A", 5, 100⟩]
    bets := [⟨1, 1, "real", "backBet", 1, 1, "e", "b", 100, 2, "pending", 100, 0, none⟩]
    transactions := []
    nextBetId := 2 }

/-- C7 failing input, request side: settle bet 1 as won, supplying
`idBookMaker` and `status` only. -/
def c7req : UpdateBetReq :=
  { id := 1, idBookMaker := some 1, bank := none, betType := none, betDate := none,
    eventDate := none, event := none, bet := none, stake := none, odds := none,
    status := some "won", info := none }

/-- C7 (code_bug), the code evaluated at the failing input: the update
replies 500 and persists nothing — the `final*` merged attributes are
computed but never passed to the calculators, and the recompute step
dereferences the out-of-scope `bookMaker` binding — whereas the claimed
derivation from the effective post-update attributes
(`status = 'won'`, `betType = 'backBet'`, `stake = 100`, `odds = 2`, with the
owner's commission 5) yields `95`. -/
theorem claim_C7_code_bug :
    updateBet c7db c7req = (⟨500⟩, c7db) ∧
    calculateResult "won" "backBet" 100 2 (calculateLiability "won" "backBet" 100 2) 5 = 95 := by
  constructor
  · decide
  · simp [calculateResult, calculateLiability, calculateCommission]
    norm_num [round2]
